import Mathlib

/-!
Shallow embedding of the Chef secrets provider (external-secrets Chef plugin).

The embedding follows the latest snapshot of the provider source
(src/unnamed/part_001, second document): store validation
(`getChefProvider`, `ValidateStore`), the secret resolver (`GetSecret`,
`getSingleDatabagItem`, `getPropertyFromDatabagItem`, `GetSecretMap`),
`Validate`, and `NewClient`.  The older `ValidateStore` of
src/pkg/provider/chef/chef.go (second document, the one carrying the
principal-name regular-expression check) is embedded separately as
`ValidateStoreV2` over its own store types.

External collaborators are modelled explicitly:
  * the remote Chef data-bag service is a `Backend` record of two
    functions (`getItem`, `listItems`); every remote invocation made by an
    operation is recorded in a `RemoteCall` log that the operation returns
    alongside its result;
  * the Kubernetes secret lookup of `NewClient` is a function argument,
    and the lookups performed are likewise returned as a log;
  * `net/url.ParseRequestURI`, `net/url.Parse`, `encoding/json.Marshal`,
    `gjson.Get` and `utils.ValidateSecretSelector` are modelled from the
    spec (see the doc comment of each).
-/

namespace Chef

/-! ## Data model (apis/externalsecrets: ChefProvider and friends) -/

/-- Store kind: namespace-scoped `SecretStore` or `ClusterSecretStore`. -/
inductive StoreKind where
  | secretStore
  | clusterSecretStore
deriving DecidableEq, Repr

/-- esmeta.SecretKeySelector: name, key and optional namespace
(`ns` stands for the Go field `Namespace`, a `*string`). -/
structure SecretKeySelector where
  name : String
  key : String
  ns : Option String
deriving DecidableEq, Repr

/-- ChefAuthSecretRef: wraps the SecretKey selector. -/
structure ChefAuthSecretRef where
  secretKey : SecretKeySelector
deriving DecidableEq, Repr

/-- ChefAuth: auth block with the secretRef. -/
structure ChefAuth where
  secretRef : ChefAuthSecretRef
deriving DecidableEq, Repr

/-- ChefProvider (v1beta1): UserName, ServerURL, Auth (a Go pointer,
hence `Option`). -/
structure ChefProvider where
  userName : String
  serverURL : String
  auth : Option ChefAuth
deriving DecidableEq, Repr

/-- SecretStoreProvider: the provider union, of which only the Chef
member is relevant here (a Go pointer, hence `Option`). -/
structure SecretStoreProvider where
  chef : Option ChefProvider
deriving DecidableEq, Repr

/-- SecretStoreSpec: carries the provider pointer. -/
structure SecretStoreSpec where
  provider : Option SecretStoreProvider
deriving DecidableEq, Repr

/-- GenericStore: the store resource, with its kind and its spec.
`store.GetSpec()` may return nil, hence `Option` for the spec; a nil
`GenericStore` interface value is modelled as `Option GenericStore` at
the call sites that check `store == nil`. -/
structure GenericStore where
  kind : StoreKind
  spec : Option SecretStoreSpec
deriving DecidableEq, Repr

/-! ## Error message constants (src/unnamed/part_001, const block) -/

def errMissingStore : String := "missing store"

def errMisingStoreSpec : String := "missing store spec"

def errMissingProvider : String := "missing provider"

def errMissingChefProvider : String := "missing chef provider"

def errMissingName : String := "missing Name"

def errMissingBaseURL : String := "missing BaseURL"

def errMissingAuth : String := "cannot initialize Chef Client: no valid authType was specified"

def errMissingSecretKey : String := "missing Secret Key"

def errChefInvalidName : String := "invalid name: allowed values are lowecase letters, numbers, hyphens and underscores"

def errUninitalizedChefProvider : String := "provider chef is not initialized"

def errNoDatabagItemFound : String := "no Databag Item found"

def errNoDatabagItemPropertyFound : String := "property is not found in Databag item"

def errInvalidFormat : String := "invalid format. Expected value 'databagName/databagItemName'"

def errServerURLNoEndSlash : String := "server URL does not end with slash(/)"

/-- errChefStore = "received invalid Chef SecretStore resource: %w";
`fmt.Errorf` with `%w` prepends the fixed prefix to the wrapped error. -/
def errChefStore (e : String) : String :=
  "received invalid Chef SecretStore resource: " ++ e

/-- errChefInvalidURL = "unable to parse URL: %w"; the wrapped error is
the `net/url` error text, which for the modelled failure mode of
`ParseRequestURI` is `parse "<url>": invalid URI for request`. -/
def errChefInvalidURL (u : String) : String :=
  "unable to parse URL: parse \"" ++ u ++ "\": invalid URI for request"

/-- errChefProvider = "missing or invalid spec: %w". -/
def errChefProvider (e : String) : String :=
  "missing or invalid spec: " ++ e

/-- errFetchK8sSecret = "could not fetch SecretKey Secret: %w". -/
def errFetchK8sSecret (e : String) : String :=
  "could not fetch SecretKey Secret: " ++ e

/-- errChefClient = "unable to create chef client: %w". -/
def errChefClientMsg (e : String) : String :=
  "unable to create chef client: " ++ e

/-! ## Model of net/url parsing -/

/-- A character allowed in a URL scheme after the leading letter
(RFC 3986: ALPHA / DIGIT / "+" / "-" / "."). -/
def isSchemeChar (c : Char) : Bool :=
  c.isAlpha || c.isDigit || c = '+' || c = '-' || c = '.'

/-- Scans for the `:` terminating a URL scheme. -/
def schemeTailOk : List Char → Bool
  | [] => false
  | c :: rest => if c = ':' then true else isSchemeChar c && schemeTailOk rest

/-- Whether the string starts with a URL scheme `alpha *(scheme-char) ":"`. -/
def hasURLScheme (s : String) : Bool :=
  match s.toList with
  | [] => false
  | c :: rest => c.isAlpha && schemeTailOk rest

/-- Modelled from the spec: `net/url.ParseRequestURI` (standard library,
not in src) succeeds exactly when the URL is absolute — "server URL
fails absolute-URL parse" — i.e. it carries a scheme, or is a rooted
path starting with `/`. -/
def parseRequestURIOk (s : String) : Bool :=
  hasURLScheme s || s.startsWith "/"

/-- Modelled from the spec: `net/url.Parse` (standard library, not in
src) accepts any URL reference; it rejects only strings containing
ASCII control characters. -/
def urlParseOk (s : String) : Bool :=
  s.toList.all (fun c => !(c.toNat < 0x20 || c.toNat = 0x7f))

/-! ## Modelled selector validation -/

def errNamespaceNotAllowed : String := "namespace not allowed with namespaced SecretStore"

def errRequireNamespace : String := "cluster scope requires namespace"

/-- Modelled from the spec: `utils.ValidateSecretSelector` (repository
code not under src; only its callers and tests are).  "cluster-scoped
store requires explicit namespace on the secret reference;
namespace-scoped store forbids it".  The namespace-not-allowed message
is the one the repository's tests expect. -/
def validateSecretSelector (kind : StoreKind) (ref : SecretKeySelector) : Option String :=
  match kind, ref.ns with
  | .clusterSecretStore, none => some errRequireNamespace
  | .secretStore, some _ => some errNamespaceNotAllowed
  | _, _ => none

/-! ## getChefProvider and ValidateStore (src/unnamed/part_001, lines 552-600) -/

/-- getChefProvider: validates the incoming store and returns the chef
provider, checking each field in source order. -/
def getChefProvider (store : Option GenericStore) : Except String ChefProvider :=
  match store with
  | none => .error errMissingStore
  | some st =>
    match st.spec with
    | none => .error errMisingStoreSpec
    | some storeSpec =>
      match storeSpec.provider with
      | none => .error errMissingProvider
      | some provider =>
        match provider.chef with
        | none => .error errMissingChefProvider
        | some chefProvider =>
          if chefProvider.userName = "" then .error errMissingName
          else if chefProvider.serverURL = "" then .error errMissingBaseURL
          else if !parseRequestURIOk chefProvider.serverURL then
            .error (errChefInvalidURL chefProvider.serverURL)
          else
            match chefProvider.auth with
            | none => .error errMissingAuth
            | some auth =>
              if auth.secretRef.secretKey.key = "" then .error errMissingSecretKey
              else .ok chefProvider

/-- ValidateStore: getChefProvider, then the namespace-selector check;
every error is wrapped with the errChefStore prefix.  Returns `none` on
success, `some msg` on rejection.  (When getChefProvider succeeds the
store and its auth block are necessarily present; the unreachable
fall-through arms return `none`.) -/
def ValidateStore (store : Option GenericStore) : Option String :=
  match getChefProvider store with
  | .error e => some (errChefStore e)
  | .ok chefProvider =>
    match store, chefProvider.auth with
    | some st, some auth =>
      match validateSecretSelector st.kind auth.secretRef.secretKey with
      | some e => some (errChefStore e)
      | none => none
    | _, _ => none

/-! ## Model of strings.Split for a single-character separator -/

/-- Accumulator form of Go's `strings.Split` restricted to a one-character
separator: consumes the characters, cutting at every separator and keeping
empty pieces. -/
def goSplitAux (sep : Char) : List Char → List Char → List (List Char)
  | [], acc => [acc.reverse]
  | c :: rest, acc =>
    if c = sep then acc.reverse :: goSplitAux sep rest []
    else goSplitAux sep rest (c :: acc)

/-- `strings.Split(s, "/")` : splits on every `/`, keeping empty segments;
the empty string yields `[""]`. -/
def goSplitSlash (s : String) : List String :=
  (goSplitAux '/' s.toList []).map String.mk

/-- Splitting a path on every `.` (the gjson dot-path separator). -/
def goSplitDot (s : String) : List String :=
  (goSplitAux '.' s.toList []).map String.mk

/-- Whether a string contains a `/` character. -/
def containsSlash (s : String) : Bool :=
  s.toList.contains '/'

/-! ## JSON values and their serialization

`chef.DataBagItem` is a dynamic JSON-like value (Go `interface{}`); it is
modelled as a `Json` tree (numbers as integers), so `json.Marshal` is the
total serialization below. -/

/-- A JSON document: the content of a data-bag item. -/
inductive Json where
  | null
  | bool (b : Bool)
  | num (n : Int)
  | str (s : String)
  | arr (elems : List Json)
  | obj (fields : List (String × Json))

/-- Escapes a JSON string body: backslash and double quote. -/
def escapeString (s : String) : String :=
  String.join (s.toList.map fun c =>
    if c = '\\' then "\\\\" else if c = '"' then "\\\"" else String.mk [c])

mutual

/-- Modelled from the spec: `encoding/json.Marshal` of a data-bag item —
the canonical JSON rendering of the modelled `Json` tree (no added
whitespace, fields in order). -/
def serialize : Json → String
  | .null => "null"
  | .bool true => "true"
  | .bool false => "false"
  | .num n => toString n
  | .str s => "\"" ++ escapeString s ++ "\""
  | .arr elems => "[" ++ serializeElems elems ++ "]"
  | .obj fields => "\x7b" ++ serializeFields fields ++ "\x7d"

/-- Serializes array elements, comma-separated. -/
def serializeElems : List Json → String
  | [] => ""
  | [j] => serialize j
  | j :: rest => serialize j ++ "," ++ serializeElems rest

/-- Serializes object fields, comma-separated. -/
def serializeFields : List (String × Json) → String
  | [] => ""
  | [(k, j)] => "\"" ++ escapeString k ++ "\":" ++ serialize j
  | (k, j) :: rest => "\"" ++ escapeString k ++ "\":" ++ serialize j ++ "," ++ serializeFields rest

end

/-! ## Model of gjson dot-path lookup -/

/-- First field of a JSON object with the given name. -/
def lookupField : List (String × Json) → String → Option Json
  | [], _ => none
  | (k, j) :: rest, key => if k = key then some j else lookupField rest key

/-- Walks a dot-path (already split into field names) through nested
objects. -/
def getPath : Json → List String → Option Json
  | j, [] => some j
  | .obj fields, key :: rest =>
    match lookupField fields key with
    | some j => getPath j rest
    | none => none
  | _, _ :: _ => none

/-- Modelled from the spec: `gjson.Get` (external library, not in src) —
"looks up that dot-path inside the serialized JSON"; the path is split on
`.` and resolved through nested object fields, evaluated here against the
parsed document rather than its serialized text. -/
def gjsonGet (j : Json) (path : String) : Option Json :=
  getPath j (goSplitDot path)

/-- Modelled from the spec: `gjson` `result.String()` — the scalar string
value of the result: the unquoted content for strings, the printed value
for numbers and booleans, empty for null, and the raw JSON for composites. -/
def gjsonString : Json → String
  | .null => ""
  | .bool true => "true"
  | .bool false => "false"
  | .num n => toString n
  | .str s => s
  | j => serialize j

/-! ## The remote data-bag backend and call logs -/

/-- A remote invocation against the Chef data-bag service. -/
inductive RemoteCall where
  | getItem (bag item : String)
  | listItems (bag : String)
deriving DecidableEq, Repr

/-- The remote Chef data-bag service (`chef.DataBagService` /
`ChefInterface`): `GetItem` fetches one item, `ListItems` lists the item
names of a data bag (the key set of Go's `DataBagListResult`). -/
structure Backend where
  getItem : String → String → Except String Json
  listItems : String → Except String (List String)

/-- The provider handle: `Providerchef.ChefInterface`, `none` when the
databag client was never initialized (nil interface). -/
def Providerchef := Option Backend

/-! ## Secret resolver (src/unnamed/part_001, lines 479-550) -/

/-- getPropertyFromDatabagItem: gjson lookup of the property dot-path;
absent path yields the fixed property-not-found error, a present path
yields the result's scalar string value. -/
def getPropertyFromDatabagItem (item : Json) (propertyName : String) : Except String String :=
  match gjsonGet item propertyName with
  | none => .error errNoDatabagItemPropertyFound
  | some result => .ok (gjsonString result)

/-- getSingleDatabagItem: fetches one item, serializes it to JSON and,
for a non-empty property, projects the property.  Returns the result
together with the remote calls made. -/
def getSingleDatabagItem (b : Backend) (dataBagName databagItemName propertyName : String) :
    Except String String × List RemoteCall :=
  match b.getItem dataBagName databagItemName with
  | .error _ => (.error errNoDatabagItemFound, [.getItem dataBagName databagItemName])
  | .ok ditem =>
    let jsonByte := serialize ditem
    if propertyName ≠ "" then
      (getPropertyFromDatabagItem ditem propertyName, [.getItem dataBagName databagItemName])
    else
      (.ok jsonByte, [.getItem dataBagName databagItemName])

/-- GetSecret: nil-client check, then the key is split on `/`; when the
split has more than one segment the first two become the data-bag and
item names (both initially empty), and the fetch proceeds exactly when
both are non-empty; otherwise the fixed invalid-format error. -/
def GetSecret (providerchef : Providerchef) (key property : String) :
    Except String String × List RemoteCall :=
  match providerchef with
  | none => (.error errUninitalizedChefProvider, [])
  | some b =>
    let nameSplitted := goSplitSlash key
    let databagName := if nameSplitted.length > 1 then nameSplitted.getD 0 "" else ""
    let databagItem := if nameSplitted.length > 1 then nameSplitted.getD 1 "" else ""
    if databagName ≠ "" ∧ databagItem ≠ "" then
      getSingleDatabagItem b databagName databagItem property
    else
      (.error errInvalidFormat, [])

/-- GetSecretMap: nil-client check, then the key is the data-bag name;
its items are listed and each is fetched with empty property.  A failed
per-item fetch is printed and its (nil) result is still stored, so every
listed item receives an entry; the map and the full call log are
returned. -/
def GetSecretMap (providerchef : Providerchef) (key : String) :
    Except String (List (String × Option String)) × List RemoteCall :=
  match providerchef with
  | none => (.error errUninitalizedChefProvider, [])
  | some b =>
    match b.listItems key with
    | .error _ => (.error errNoDatabagItemFound, [.listItems key])
    | .ok dataItems =>
      let entries := dataItems.map fun dataItem =>
        (dataItem, (getSingleDatabagItem b key dataItem "").1.toOption)
      let calls := dataItems.flatMap fun dataItem =>
        (getSingleDatabagItem b key dataItem "").2
      (.ok entries, .listItems key :: calls)

/-! ## Validate (src/unnamed/part_001, lines 457-471) -/

/-- Validation result reported to the operator. -/
inductive ValidationResult where
  | ready
  | unknown
  | error
deriving DecidableEq, Repr

/-- Validate: returns Ready and no error; the reachability check against
the remote server is commented out in the source. -/
def Validate (_ : Providerchef) : ValidationResult × Option String :=
  (.ready, none)

/-! ## NewClient (src/unnamed/part_001, lines 417-450) -/

/-- Lookup in the byte-string data map of a Kubernetes secret
(`credentialsSecret.Data[key]`); an absent key is Go's nil slice. -/
def lookupData : List (String × String) → String → Option String
  | [], _ => none
  | (k, v) :: rest, key => if k = key then some v else lookupData rest key

/-- NewClient: validates the store via getChefProvider, resolves the auth
secret by (secret name, caller-supplied namespace), requires a non-empty
key payload, and builds the remote client.  `kube` is the Kubernetes
secret lookup (name and namespace to the secret's data map) and
`mkChefClient` is `chef.NewClient` over (name, key material, base URL);
the secret lookups performed are returned alongside the result.  (When
getChefProvider succeeds the auth block is present; the unreachable arm
returns the missing-auth error.) -/
def NewClient (kube : String → String → Except String (List (String × String)))
    (mkChefClient : String → String → String → Except String Backend)
    (store : Option GenericStore) (ns : String) :
    Except String Backend × List (String × String) :=
  match getChefProvider store with
  | .error e => (.error (errChefProvider e), [])
  | .ok chefProvider =>
    match chefProvider.auth with
    | none => (.error errMissingAuth, [])
    | some auth =>
      let nm := auth.secretRef.secretKey.name
      match kube nm ns with
      | .error e => (.error (errFetchK8sSecret e), [(nm, ns)])
      | .ok data =>
        match lookupData data auth.secretRef.secretKey.key with
        | none => (.error errMissingSecretKey, [(nm, ns)])
        | some secretKey =>
          if secretKey = "" then (.error errMissingSecretKey, [(nm, ns)])
          else
            match mkChefClient chefProvider.userName secretKey chefProvider.serverURL with
            | .error e => (.error (errChefClientMsg e), [(nm, ns)])
            | .ok client => (.ok client, [(nm, ns)])

/-! ## The earlier validator of src/pkg/provider/chef/chef.go (second
document, lines 197-358): v1alpha1-shaped store with `Name`, `BaseURL`
and a `PublicKey` auth selector, and a ValidateStore that checks the
principal name against the pattern. -/

def errUnexpectedStoreSpec : String := "unexpected store spec"

def errMissingPublicKey : String := "missing Public Key"

/-- ChefAuthSecretRef (v1alpha1): wraps the PublicKey selector. -/
structure ChefAuthSecretRefV2 where
  publicKey : SecretKeySelector
deriving DecidableEq, Repr

/-- ChefAuth (v1alpha1): auth block with the secretRef. -/
structure ChefAuthV2 where
  secretRef : ChefAuthSecretRefV2
deriving DecidableEq, Repr

/-- ChefProvider (v1alpha1): Name, BaseURL, Auth. -/
structure ChefProviderV2 where
  name : String
  baseURL : String
  auth : Option ChefAuthV2
deriving DecidableEq, Repr

/-- SecretStoreProvider for the v1alpha1-shaped validator. -/
structure SecretStoreProviderV2 where
  chef : Option ChefProviderV2
deriving DecidableEq, Repr

/-- SecretStoreSpec for the v1alpha1-shaped validator. -/
structure SecretStoreSpecV2 where
  provider : Option SecretStoreProviderV2
deriving DecidableEq, Repr

/-- GenericStore for the v1alpha1-shaped validator. -/
structure GenericStoreV2 where
  kind : StoreKind
  spec : Option SecretStoreSpecV2
deriving DecidableEq, Repr

/-- A character matched by the name pattern `[a-z0-9_-]`: lowercase
letter, digit, underscore or hyphen. -/
def isValidNameChar (c : Char) : Bool :=
  ('a' ≤ c && c ≤ 'z') || c.isDigit || c = '_' || c = '-'

/-- `regexp.MustCompile("^[a-z0-9_-]*$").MatchString`: every character of
the name is allowed (the empty name matches). -/
def validNameMatch (s : String) : Bool :=
  s.toList.all isValidNameChar

/-- ValidateStore of src/pkg/provider/chef/chef.go lines 320-358: spec,
provider and chef blocks present (each absence is the unexpected-spec
error), BaseURL non-empty and accepted by `url.Parse`, Name non-empty
and matching the `[a-z0-9_-]*` pattern, auth present with a non-empty
PublicKey key, then the namespace-selector check; every error is
wrapped with the errChefStore prefix. -/
def ValidateStoreV2 (store : GenericStoreV2) : Option String :=
  match store.spec with
  | none => some (errChefStore errUnexpectedStoreSpec)
  | some storeSpec =>
    match storeSpec.provider with
    | none => some (errChefStore errUnexpectedStoreSpec)
    | some provider =>
      match provider.chef with
      | none => some (errChefStore errUnexpectedStoreSpec)
      | some chefSpec =>
        if chefSpec.baseURL = "" then some (errChefStore errMissingBaseURL)
        else if !urlParseOk chefSpec.baseURL then
          some (errChefStore (errChefInvalidURL chefSpec.baseURL))
        else if chefSpec.name = "" then some (errChefStore errMissingName)
        else if !validNameMatch chefSpec.name then some (errChefStore errChefInvalidName)
        else
          match chefSpec.auth with
          | none => some (errChefStore errMissingAuth)
          | some auth =>
            if auth.secretRef.publicKey.key = "" then some (errChefStore errMissingPublicKey)
            else
              match validateSecretSelector store.kind auth.secretRef.publicKey with
              | some e => some (errChefStore e)
              | none => none

/-! ## Helper lemmas on splitting -/

/-- A string with `containsSlash` false has no `/` among its characters. -/
theorem not_mem_of_containsSlash_false {s : String} (h : containsSlash s = false) :
    '/' ∉ s.toList := by
  intro hm
  rw [containsSlash, List.contains, List.elem_eq_true_of_mem hm] at h
  exact Bool.noConfusion h

/-- Splitting a separator-free character list returns one segment. -/
theorem goSplitAux_no_sep (l acc : List Char) (h : '/' ∉ l) :
    goSplitAux '/' l acc = [acc.reverse ++ l] := by
  induction l generalizing acc with
  | nil => simp [goSplitAux]
  | cons c rest ih =>
    have hc : ¬c = '/' := by intro hc; exact h (hc ▸ List.mem_cons_self c rest)
    have hrest : '/' ∉ rest := fun hm => h (List.mem_cons_of_mem _ hm)
    simp [goSplitAux, hc, ih _ hrest]

/-- Splitting a list with a single separator between two separator-free
parts yields exactly those two segments. -/
theorem goSplitAux_single (l1 l2 : List Char) (acc : List Char) (h1 : '/' ∉ l1) (h2 : '/' ∉ l2) :
    goSplitAux '/' (l1 ++ '/' :: l2) acc = [acc.reverse ++ l1, l2] := by
  induction l1 generalizing acc with
  | nil => simp [goSplitAux, goSplitAux_no_sep l2 [] h2]
  | cons c rest ih =>
    have hc : ¬c = '/' := by intro hc; exact h1 (hc ▸ List.mem_cons_self c rest)
    have hrest : '/' ∉ rest := fun hm => h1 (List.mem_cons_of_mem _ hm)
    simp [goSplitAux, hc, ih _ hrest]

/-- `strings.Split` of `s1 ++ "/" ++ s2` with both parts slash-free is
`[s1, s2]`. -/
theorem goSplitSlash_compound (s1 s2 : String)
    (h1 : containsSlash s1 = false) (h2 : containsSlash s2 = false) :
    goSplitSlash (s1 ++ "/" ++ s2) = [s1, s2] := by
  have htl : (s1 ++ "/" ++ s2).toList = s1.toList ++ '/' :: s2.toList := by simp
  rw [goSplitSlash, htl,
    goSplitAux_single _ _ _ (not_mem_of_containsSlash_false h1) (not_mem_of_containsSlash_false h2)]
  simp

/-- GetSecret on a compound key built from a slash-free, non-empty bag
and item delegates to the single-item fetch. -/
theorem GetSecret_compound (b : Backend) (s1 s2 prop : String)
    (h1 : s1 ≠ "") (h2 : s2 ≠ "")
    (hc1 : containsSlash s1 = false) (hc2 : containsSlash s2 = false) :
    GetSecret (some b) (s1 ++ "/" ++ s2) prop = getSingleDatabagItem b s1 s2 prop := by
  rw [GetSecret, goSplitSlash_compound s1 s2 hc1 hc2]
  simp [h1, h2]

/-! ## Claim C3: property projection of a fetched item -/

/-- Data-bag item used by the C3 witness. -/
def jC3 : Json := .obj [("id", .str "databag01-item01"), ("some_key", .str "fe7f29ede349519a1")]

/-- Backend used by the C3 witness: one bag with one item. -/
def bC3 : Backend :=
  { getItem := fun bag item => if bag = "databag01" ∧ item = "item01" then .ok jC3 else .error "404"
  , listItems := fun _ => .error "404" }

/-- C3: for every successfully fetched (and, in the model, always
JSON-serializable) data-bag item, GetSecret with an empty property
returns the full JSON serialization of the item unchanged; with a
non-empty property it returns that dot-path field's scalar string value
when the path exists and fails with the fixed property-not-found error
when it does not. -/
theorem GetSecret_property_projection (b : Backend) (bag item : String) (j : Json)
    (hbag : bag ≠ "" ∧ containsSlash bag = false)
    (hitem : item ≠ "" ∧ containsSlash item = false)
    (hfetch : b.getItem bag item = .ok j) :
    (GetSecret (some b) (bag ++ "/" ++ item) "").1 = .ok (serialize j)
    ∧ ∀ prop : String, prop ≠ "" →
        (GetSecret (some b) (bag ++ "/" ++ item) prop).1 =
          match gjsonGet j prop with
          | some r => .ok (gjsonString r)
          | none => .error errNoDatabagItemPropertyFound := by
  constructor
  · rw [GetSecret_compound b bag item "" hbag.1 hitem.1 hbag.2 hitem.2]
    simp [getSingleDatabagItem, hfetch]
  · intro prop hprop
    rw [GetSecret_compound b bag item prop hbag.1 hitem.1 hbag.2 hitem.2]
    rw [getSingleDatabagItem, hfetch]
    simp [hprop, getPropertyFromDatabagItem]
    cases gjsonGet j prop <;> simp

/-- C3 witness: concrete item fetched from `bC3`; empty property gives
the serialized item, property `id` gives its value, an absent property
gives the fixed error. -/
theorem GetSecret_property_projection_witness :
    (GetSecret (some bC3) ("databag01" ++ "/" ++ "item01") "").1
        = .ok "\x7b\"id\":\"databag01-item01\",\"some_key\":\"fe7f29ede349519a1\"\x7d"
    ∧ (GetSecret (some bC3) ("databag01" ++ "/" ++ "item01") "id").1 = .ok "databag01-item01"
    ∧ (GetSecret (some bC3) ("databag01" ++ "/" ++ "item01") "absent").1
        = .error errNoDatabagItemPropertyFound := by
  have h := GetSecret_property_projection bC3 "databag01" "item01" jC3
    ⟨by decide, rfl⟩ ⟨by decide, rfl⟩ rfl
  exact ⟨h.1.trans rfl, (h.2 "id" (by decide)).trans rfl, (h.2 "absent" (by decide)).trans rfl⟩

/-! ## Claim C4: best-effort behaviour of GetSecretMap -/

/-- C4 (amended): when listing succeeds, GetSecretMap returns without
error a map whose keys are exactly the listed item names, in which every
item — including one whose per-item fetch failed — has an entry, the
entry's value being the fetch result (`none`, Go's nil slice, exactly
when the fetch failed); a per-item failure never aborts the call. -/
theorem GetSecretMap_entries (b : Backend) (bag : String) (names : List String)
    (hlist : b.listItems bag = .ok names) :
    ∃ m, (GetSecretMap (some b) bag).1 = .ok m
      ∧ m.map Prod.fst = names
      ∧ ∀ p ∈ m, p.2 = ((getSingleDatabagItem b bag p.1 "").1).toOption := by
  refine ⟨names.map fun it => (it, ((getSingleDatabagItem b bag it "").1).toOption), ?_, ?_, ?_⟩
  · simp [GetSecretMap, hlist]
  · simp [Function.comp_def]
  · intro p hp
    simp only [List.mem_map] at hp
    obtain ⟨it, _, rfl⟩ := hp
    rfl

/-- Backend used by the C4 witness: listing yields one item whose fetch
fails. -/
def b4w : Backend :=
  { getItem := fun _ _ => .error "404"
  , listItems := fun bag => if bag = "bag" then .ok ["bad"] else .error "404" }

/-- C4 witness: a bag with a single failing item still yields an ok map
with that item's entry. -/
theorem GetSecretMap_entries_witness :
    ∃ m, (GetSecretMap (some b4w) "bag").1 = .ok m
      ∧ m.map Prod.fst = ["bad"]
      ∧ ∀ p ∈ m, p.2 = ((getSingleDatabagItem b4w "bag" p.1 "").1).toOption :=
  GetSecretMap_entries b4w "bag" ["bad"] rfl

/-- Backend used by the C4 counterexample: two listed items, `good`
fetches, `bad` fails. -/
def b4c : Backend :=
  { getItem := fun bag item => if bag = "bagc" ∧ item = "good" then .ok (.str "g") else .error "404"
  , listItems := fun bag => if bag = "bagc" then .ok ["good", "bad"] else .error "404" }

/-- C4 counterexample: the item `bad` whose fetch fails is NOT skipped —
the returned map still contains an entry for it (with a nil value),
refuting "no entry for it appears in the returned map". -/
theorem GetSecretMap_keeps_failed_item_entry :
    (GetSecretMap (some b4c) "bagc").1 = .ok [("good", some "\"g\""), ("bad", none)] := rfl

/-! ## Claim C2: key-format gate of GetSecret -/

/-- Per the amended claim: the key's first two `/`-separated segments
both exist and are non-empty. -/
def firstTwoSegmentsNonEmpty (key : String) : Bool :=
  match goSplitSlash key with
  | a :: b :: _ => decide (a ≠ "") && decide (b ≠ "")
  | _ => false

/-- First `/`-separated segment of a key (empty when absent). -/
def segment0 (key : String) : String := (goSplitSlash key).getD 0 ""

/-- Second `/`-separated segment of a key (empty when absent). -/
def segment1 (key : String) : String := (goSplitSlash key).getD 1 ""

/-- C2 (amended): GetSecret on an initialized provider fails with the
fixed invalid-format error and performs no remote call exactly when the
key's first two `/`-separated segments do not both exist non-empty;
otherwise it proceeds to the single-item fetch of those two segments
(any further segments are ignored). -/
theorem GetSecret_key_format (b : Backend) (key prop : String) :
    GetSecret (some b) key prop =
      if firstTwoSegmentsNonEmpty key then
        getSingleDatabagItem b (segment0 key) (segment1 key) prop
      else
        (.error errInvalidFormat, []) := by
  rw [GetSecret, firstTwoSegmentsNonEmpty, segment0, segment1]
  cases h : goSplitSlash key with
  | nil => simp
  | cons a rest =>
    cases rest with
    | nil => simp
    | cons bb rest2 =>
      by_cases ha : a = "" <;> by_cases hb : bb = "" <;>
        simp [ha, hb, List.getD]

/-- Backend used by the C2 counterexample. -/
def bC2 : Backend :=
  { getItem := fun bag item => if bag = "a" ∧ item = "b" then .ok (.str "v") else .error "404"
  , listItems := fun _ => .error "404" }

/-- C2 counterexample: the key `a/b/c` splits into three segments — not
"exactly two non-empty segments" — yet GetSecret does not fail with the
invalid-format error: it invokes the remote GetItem call on `(a, b)` and
returns its result, refuting the claim as stated. -/
theorem GetSecret_three_segment_key_fetches :
    GetSecret (some bC2) "a/b/c" "" = (.ok "\"v\"", [.getItem "a" "b"])
    ∧ goSplitSlash "a/b/c" = ["a", "b", "c"] := ⟨rfl, rfl⟩

/-! ## Claim C8: uninitialized provider -/

/-- C8: on a provider whose databag client handle is absent, GetSecret
fails with the fixed not-initialized error for every reference, making
no remote call (the empty call log and the key-independence express
"before any key parsing or remote call"). -/
theorem GetSecret_uninitialized (key prop : String) :
    GetSecret none key prop = (.error errUninitalizedChefProvider, []) := rfl

/-! ## Claim C9: Validate is constant -/

/-- C9: Validate returns the Ready result and no error for every
provider state, including the uninitialized one; no reachability check
is performed (the result does not depend on the state at all). -/
theorem Validate_always_ready (p : Providerchef) :
    Validate p = (ValidationResult.ready, none) := rfl

/-! ## Claim C5: GetSecretMap agrees with GetSecret per item -/

/-- C5 (amended): for a data bag whose name is non-empty and slash-free,
whose listing succeeds, and whose listed items are all non-empty,
slash-free and fetch successfully, GetSecretMap returns exactly the
listed item names as keys, each mapped to the (successful) result of
GetSecret on the compound key `<dataBagName>/<itemName>` with empty
property. -/
theorem GetSecretMap_agrees_with_GetSecret (b : Backend) (bag : String) (names : List String)
    (hbag : bag ≠ "" ∧ containsSlash bag = false)
    (hlist : b.listItems bag = .ok names)
    (hnames : ∀ it ∈ names, it ≠ "" ∧ containsSlash it = false ∧ (b.getItem bag it).isOk = true) :
    (GetSecretMap (some b) bag).1 =
      .ok (names.map fun it => (it, ((GetSecret (some b) (bag ++ "/" ++ it) "").1).toOption))
    ∧ ∀ it ∈ names, ((GetSecret (some b) (bag ++ "/" ++ it) "").1).isOk = true := by
  have hcomp : ∀ it ∈ names,
      GetSecret (some b) (bag ++ "/" ++ it) "" = getSingleDatabagItem b bag it "" := by
    intro it hit
    exact GetSecret_compound b bag it "" hbag.1 (hnames it hit).1 hbag.2 (hnames it hit).2.1
  constructor
  · simp only [GetSecretMap, hlist]
    congr 1
    apply List.map_congr_left
    intro it hit
    rw [hcomp it hit]
  · intro it hit
    rw [hcomp it hit]
    obtain ⟨-, -, hok⟩ := hnames it hit
    rcases hg : b.getItem bag it with e | j
    · rw [hg] at hok
      simp [Except.isOk, Except.toBool] at hok
    · simp [getSingleDatabagItem, hg, Except.isOk, Except.toBool]

/-- Backend used by the C5 witness: one bag with two items. -/
def b5w : Backend :=
  { getItem := fun bag item =>
      if bag = "databag01" ∧ (item = "item01" ∨ item = "item02") then .ok (.str "v") else .error "404"
  , listItems := fun bag => if bag = "databag01" then .ok ["item01", "item02"] else .error "404" }

/-- C5 witness: the two-item bag of the spec's example. -/
theorem GetSecretMap_agrees_with_GetSecret_witness :
    (GetSecretMap (some b5w) "databag01").1 =
      .ok (["item01", "item02"].map fun it =>
        (it, ((GetSecret (some b5w) ("databag01" ++ "/" ++ it) "").1).toOption))
    ∧ ∀ it ∈ ["item01", "item02"],
        ((GetSecret (some b5w) ("databag01" ++ "/" ++ it) "").1).isOk = true :=
  GetSecretMap_agrees_with_GetSecret b5w "databag01" ["item01", "item02"]
    ⟨by decide, rfl⟩ rfl (by decide)

/-- Backend used by the C5 counterexample: the single listed item name
contains a slash and fetches successfully. -/
def b5c : Backend :=
  { getItem := fun bag item => if bag = "b" ∧ item = "x/y" then .ok (.str "s") else .error "404"
  , listItems := fun bag => if bag = "b" then .ok ["x/y"] else .error "404" }

/-- C5 counterexample: listing succeeds and every listed item fetches
successfully, yet the map's value for item `x/y` (the serialized item)
differs from GetSecret on the compound key `b/x/y`, which re-splits the
key and fails — refuting the claim as stated. -/
theorem GetSecretMap_GetSecret_disagree_on_slashed_item :
    (GetSecretMap (some b5c) "b").1 = .ok [("x/y", some "\"s\"")]
    ∧ (GetSecret (some b5c) "b/x/y" "").1 = .error errNoDatabagItemFound := ⟨rfl, rfl⟩

/-! ## Claim C1: the ordered validation contract of ValidateStore -/

/-- `strings.HasSuffix(s, "/")`: whether the string's final character is
a slash. -/
def endsWithSlash (s : String) : Bool := decide (s.toList.getLast? = some '/')

/-- The amended specification contract of ValidateStore, written as the
first violated rule of the ordered list: missing store, missing spec,
missing provider block, missing chef provider block, missing principal
name, missing server URL, server URL fails absolute-URL parse, missing
auth block, missing auth secret key name, namespace-selector mismatch —
each reason wrapped with the invalid-resource prefix.  (The claimed
trailing-slash and principal-name-pattern rules are absent: the source
checks neither.) -/
def specValidationError (store : Option GenericStore) : Option String :=
  match store with
  | none => some (errChefStore errMissingStore)
  | some st =>
    match st.spec with
    | none => some (errChefStore errMisingStoreSpec)
    | some sp =>
      match sp.provider with
      | none => some (errChefStore errMissingProvider)
      | some pv =>
        match pv.chef with
        | none => some (errChefStore errMissingChefProvider)
        | some cp =>
          if cp.userName = "" then some (errChefStore errMissingName)
          else if cp.serverURL = "" then some (errChefStore errMissingBaseURL)
          else if !parseRequestURIOk cp.serverURL then
            some (errChefStore (errChefInvalidURL cp.serverURL))
          else
            match cp.auth with
            | none => some (errChefStore errMissingAuth)
            | some a =>
              if a.secretRef.secretKey.key = "" then some (errChefStore errMissingSecretKey)
              else
                match validateSecretSelector st.kind a.secretRef.secretKey with
                | some e => some (errChefStore e)
                | none => none

/-- C1 (amended): for every store configuration, ValidateStore either
succeeds or returns the error of the first violated rule of the ordered
list embodied by `specValidationError` — without a trailing-slash or
principal-name-pattern rule. -/
theorem ValidateStore_first_violated_rule (store : Option GenericStore) :
    ValidateStore store = specValidationError store := by
  cases store with
  | none => rfl
  | some st =>
    obtain ⟨kind, spec⟩ := st
    cases spec with
    | none => rfl
    | some sp =>
      obtain ⟨pv⟩ := sp
      cases pv with
      | none => rfl
      | some provider =>
        obtain ⟨chefOpt⟩ := provider
        cases chefOpt with
        | none => rfl
        | some cp =>
          obtain ⟨u, url, auth⟩ := cp
          cases auth with
          | none =>
            by_cases hu : u = "" <;> by_cases hurl : url = "" <;>
              by_cases hpu : parseRequestURIOk url = true <;>
              simp [ValidateStore, getChefProvider, specValidationError, hu, hurl, hpu]
          | some a =>
            obtain ⟨⟨sk⟩⟩ := a
            by_cases hu : u = "" <;> by_cases hurl : url = "" <;>
              by_cases hpu : parseRequestURIOk url = true <;>
              by_cases hk : sk.key = "" <;>
              simp [ValidateStore, getChefProvider, specValidationError, hu, hurl, hpu, hk]

/-- Store used by the C1 counterexample: every field present and valid
except that the server URL lacks the trailing slash. -/
def storeC1cex : GenericStore :=
  ⟨.secretStore, some ⟨some ⟨some ⟨"user01", "https://chef.example/org",
    some ⟨⟨⟨"auth01", "key01", none⟩⟩⟩⟩⟩⟩⟩

/-- C1 counterexample: the claimed rule list includes "server URL missing
trailing slash", so on this store — whose URL parses but lacks the
trailing slash, all later-checked fields valid — the claim demands that
error; ValidateStore instead accepts the store. -/
theorem ValidateStore_no_slash_rule_cex :
    ValidateStore (some storeC1cex) = none
    ∧ endsWithSlash "https://chef.example/org" = false := ⟨rfl, rfl⟩

/-! ## Claim C6: no trailing-slash check is performed -/

/-- Store used by the C6 failing input: the test suite's user and URL
(without its trailing slash), auth present with a non-empty key, and a
selector that matches the namespace-scoped store. -/
def storeC6 : GenericStore :=
  ⟨.secretStore, some ⟨some ⟨some ⟨"chef-demo-user",
    "https://chef.cloudant.com/organizations/myorg",
    some ⟨⟨⟨"chef-demo-auth-name", "chef-demo-auth-key", none⟩⟩⟩⟩⟩⟩⟩

/-- C6 failing input: the server URL does not end with `/`, yet
ValidateStore accepts the store — although the repository's own test
suite expects the fixed `server URL does not end with slash(/)` error
(whose constant the source defines but never uses). -/
theorem ValidateStore_accepts_url_without_trailing_slash :
    ValidateStore (some storeC6) = none
    ∧ endsWithSlash "https://chef.cloudant.com/organizations/myorg" = false
    ∧ errServerURLNoEndSlash = "server URL does not end with slash(/)" := ⟨rfl, rfl, rfl⟩

/-! ## Claim C7: rejection of invalid principal names (chef.go validator) -/

/-- C7 (amended): a store whose chef block carries a principal name with
a character outside `[a-z0-9_-]` (an uppercase letter or other
disallowed symbol) is always rejected by ValidateStoreV2; the error is
the fixed invalid-name one provided the earlier-checked rules pass
(BaseURL non-empty and parseable — the spec, provider and chef blocks
being present is already required for the name to exist). -/
theorem ValidateStoreV2_rejects_invalid_name (store : GenericStoreV2) (sp : SecretStoreSpecV2)
    (pv : SecretStoreProviderV2) (cs : ChefProviderV2)
    (hspec : store.spec = some sp) (hpv : sp.provider = some pv) (hchef : pv.chef = some cs)
    (hbad : validNameMatch cs.name = false) :
    (ValidateStoreV2 store).isSome = true
    ∧ (cs.baseURL ≠ "" → urlParseOk cs.baseURL = true →
        ValidateStoreV2 store = some (errChefStore errChefInvalidName)) := by
  have hname : cs.name ≠ "" := by
    intro h
    rw [h] at hbad
    exact absurd hbad (by decide)
  simp only [ValidateStoreV2, hspec, hpv, hchef]
  constructor
  · by_cases hb : cs.baseURL = "" <;> by_cases hp : urlParseOk cs.baseURL = true <;>
      simp [hb, hp, hname, hbad, Bool.not_eq_true] at *
  · intro hb hp
    simp [hb, hp, hname, hbad]

/-- Store used by the C7 witness: an uppercase principal name, all other
fields valid. -/
def storeC7w : GenericStoreV2 :=
  ⟨.secretStore, some ⟨some ⟨some ⟨"Chef-User", "https://chef.example/org/",
    some ⟨⟨⟨"auth01", "key01", none⟩⟩⟩⟩⟩⟩⟩

/-- C7 witness: the uppercase name is rejected with the fixed
invalid-name error. -/
theorem ValidateStoreV2_rejects_invalid_name_witness :
    (ValidateStoreV2 storeC7w).isSome = true
    ∧ ValidateStoreV2 storeC7w = some (errChefStore errChefInvalidName) := by
  have h := ValidateStoreV2_rejects_invalid_name storeC7w _ _ _ rfl rfl rfl (by decide)
  exact ⟨h.1, h.2 (by decide) (by decide)⟩

/-- Store used by the C7 counterexample: uppercase name AND an empty
BaseURL. -/
def storeC7c : GenericStoreV2 :=
  ⟨.secretStore, some ⟨some ⟨some ⟨"Admin", "", some ⟨⟨⟨"auth01", "key01", none⟩⟩⟩⟩⟩⟩⟩

/-- C7 counterexample: the principal name `Admin` violates the pattern,
yet ValidateStoreV2 reports the missing-BaseURL error, not the fixed
invalid-name error the claim demands — the store is rejected, but an
earlier-ordered rule supplies the error. -/
theorem ValidateStoreV2_invalid_name_masked_by_earlier_rule :
    validNameMatch "Admin" = false
    ∧ ValidateStoreV2 storeC7c = some (errChefStore errMissingBaseURL) := ⟨rfl, rfl⟩

/-! ## Claim C10: NewClient ignores the selector namespace and store kind -/

/-- The store with the namespace field of its auth secret key reference
replaced (all other fields untouched). -/
def withSelectorNamespace (st : GenericStore) (n : Option String) : GenericStore :=
  { st with spec := st.spec.map fun sp =>
      { sp with provider := sp.provider.map fun pv =>
        { pv with chef := pv.chef.map fun cp =>
          { cp with auth := cp.auth.map fun a =>
            { a with secretRef := { secretKey := { a.secretRef.secretKey with ns := n } } } } } } }

/-- The store with its kind replaced. -/
def withKind (st : GenericStore) (k : StoreKind) : GenericStore := { st with kind := k }

/-- C10: NewClient resolves the authentication secret exclusively in the
caller-supplied namespace argument — two stores differing only in the
selector's namespace field, in the store kind, or in both, produce the
same secret lookups (the returned lookup log) and the same result. -/
theorem NewClient_namespace_and_kind_independent
    (kube : String → String → Except String (List (String × String)))
    (mk : String → String → String → Except String Backend)
    (st : GenericStore) (k1 k2 : StoreKind) (n1 n2 : Option String) (ns : String) :
    NewClient kube mk (some (withKind (withSelectorNamespace st n1) k1)) ns
      = NewClient kube mk (some (withKind (withSelectorNamespace st n2) k2)) ns := by
  obtain ⟨kind, spec⟩ := st
  cases spec with
  | none => rfl
  | some sp =>
    obtain ⟨pv⟩ := sp
    cases pv with
    | none => rfl
    | some provider =>
      obtain ⟨chefOpt⟩ := provider
      cases chefOpt with
      | none => rfl
      | some cp =>
        obtain ⟨u, url, auth⟩ := cp
        cases auth with
        | none => rfl
        | some a =>
          obtain ⟨⟨sk⟩⟩ := a
          obtain ⟨nm, k, nsopt⟩ := sk
          simp only [NewClient, getChefProvider, withKind, withSelectorNamespace, Option.map]
          by_cases hu : u = "" <;> by_cases hurl : url = "" <;>
            by_cases hpu : parseRequestURIOk url = true <;>
            by_cases hk : k = "" <;>
            simp [hu, hurl, hpu, hk]

end Chef
